import Mathlib

set_option maxRecDepth 8000
set_option linter.unusedVariables false

/-!
Verification development for the `evolve_island_world_gmd2106` notebook
(repository `component_modeling_csdms_chapter`).

The notebook is a script: its per-step orchestration (the `for i in range(1,
num_iter + 1)` main time loop) is embedded here as a state transformer over a
grid of `n` nodes whose per-node fields are functions `Fin n → ℚ`.  Machine
floats are modelled by exact rationals.  The external collaborators that the
spec designates as black boxes (the `Flexure` solver and the flow-routing /
erosion-deposition solver) are function-valued parameters of the model
configuration.  Landlab components whose code is not part of this repository
(`ListricKinematicExtender`, `SimpleSubmarineDiffuser`) are modelled from the
spec, as noted in their doc comments.  A separate model over `Option ℚ`
(`none` playing the role of a non-finite float) is used to settle the claim
about non-finite-value handling.
-/

namespace IslandWorld

/-- Boundary classification of a grid node, mirroring the two landlab codes the
notebook uses: `BC_NODE_IS_CORE` and `BC_NODE_IS_FIXED_VALUE`. -/
inductive NodeStatus where
  | core : NodeStatus
  | fixedValue : NodeStatus
deriving DecidableEq

open NodeStatus

/-- The two boundary codes are distinct (simp aid for branch resolution). -/
@[simp] lemma fixedValue_ne_core : (fixedValue = core) ↔ False :=
  ⟨fun h => NodeStatus.noConfusion h, False.elim⟩

/-- The two boundary codes are distinct (simp aid for branch resolution). -/
@[simp] lemma core_ne_fixedValue : (core = fixedValue) ↔ False :=
  ⟨fun h => NodeStatus.noConfusion h, False.elim⟩

/-- Modelled from the spec: the `ListricKinematicExtender` landlab component is
not part of this repository (the notebook only instantiates it with
`extension_rate`, `fault_dip`, `fault_location`, `detachment_depth` and calls
`ke.run_one_step(dt)`).  Per section 4.2 of the spec, horizontal extension at a
configured rate, combined with fault dip, fault trace location and detachment
depth, maps to a vertical subsidence profile applied to hangingwall nodes only.
The geometry-derived subsidence profile (subsidence per unit of horizontal
extension) is a nonnegative per-node field that vanishes on the footwall side
of the fault trace; the spec gives no closed formula for it, so it is a model
field constrained by those two properties. -/
structure TectonicExtensionModel (n : ℕ) where
  extension_rate : ℚ
  fault_dip : ℚ
  fault_location : ℚ
  detachment_depth : ℚ
  x : Fin n → ℚ
  profile : Fin n → ℚ
  profile_nonneg : ∀ i, 0 ≤ profile i
  profile_footwall : ∀ i, ¬ fault_location < x i → profile i = 0

/-- A node is on the hangingwall side when it lies beyond the fault trace
location (the block above the inclined fault surface). -/
def TectonicExtensionModel.hangingwall {n : ℕ} (m : TectonicExtensionModel n)
    (i : Fin n) : Bool :=
  decide (m.fault_location < m.x i)

/-- Modelled from the spec: one call of the extender's update (the notebook's
`ke.run_one_step(dt)`) adds one timestep's worth of subsidence, at the
configured extension rate, to the cumulative-subsidence field at hangingwall
nodes only; footwall nodes are untouched. -/
def extUpdate {n : ℕ} (m : TectonicExtensionModel n) (dt : ℚ)
    (cs : Fin n → ℚ) : Fin n → ℚ :=
  fun i => cs i + (if m.hangingwall i then m.extension_rate * m.profile i * dt else 0)

/-- Cumulative-subsidence field after `k` successive calls of the extender's
update, starting from `cs`. -/
def extRun {n : ℕ} (m : TectonicExtensionModel n) (dt : ℚ)
    (cs : Fin n → ℚ) : ℕ → (Fin n → ℚ)
  | 0 => cs
  | k + 1 => extUpdate m dt (extRun m dt cs k)

/-- Run configuration: the notebook's scalar parameters, the fixed grid data
(perimeter flags, adjacency, spacing, representative cell area
`grid.area_of_cell[0]`), the seeded standard-normal stream behind
`np.random.randn()`, the spec-modelled extension component, and the two
collaborators the spec treats as black boxes: `flex` (the `Flexure` component:
deflection as a deterministic function of the load field) and `fluvial` (the
`FlowAccumulator` + `ErosionDeposition` pair: from boundary status, elevation
and `dt` it produces the updated elevation together with the sediment-influx
field `ed._qs_in`).  The primary hex grid and the auxiliary flexure raster grid
are index-compatible by construction, so both are indexed by `Fin n`. -/
structure Config (n : ℕ) where
  crust_datum : ℚ
  unit_wt : ℚ
  dt : ℚ
  sea_level_delta : ℚ
  wave_base : ℚ
  marine_diff : ℚ
  tiny_diff : ℚ
  cellArea : ℚ
  dx : ℚ
  perimeter : Fin n → Bool
  adj : Fin n → Fin n → Bool
  draws : ℕ → ℚ
  ext : TectonicExtensionModel n
  flex : (Fin n → ℚ) → (Fin n → ℚ)
  fluvial : (Fin n → NodeStatus) → (Fin n → ℚ) → ℚ → ((Fin n → ℚ) × (Fin n → ℚ))

/-- Mutable state of one run: the notebook's grid fields (`z`,
`status_at_node`, `cumulative_deposit_thickness`, `upper_crust_thickness`,
`cumulative_subsidence_depth`, the flexure grid's load and deflection fields,
`is_subaerial`), the scalar `current_sea_level`, the `sea_level` history list,
the loop-local copy `z0` (`prev_z`), the extender's sediment-influx output
`ed._qs_in` (`qs`), the frozen pre-loop deflection baseline `init_deflection`,
and the position in the random stream. -/
structure State (n : ℕ) where
  z : Fin n → ℚ
  status : Fin n → NodeStatus
  cum_depo : Fin n → ℚ
  thickness : Fin n → ℚ
  cum_subs : Fin n → ℚ
  load : Fin n → ℚ
  deflection : Fin n → ℚ
  init_deflection : Fin n → ℚ
  sea_level : ℚ
  sea_hist : List ℚ
  subaerial : Fin n → Bool
  prev_z : Fin n → ℚ
  qs : Fin n → ℚ
  rng : ℕ

/-- Pre-loop initialization, mirroring the notebook's setup cells:
`thickness[:] = z - crust_datum`, `load[:] = unit_wt * thickness`,
`fl.update()` (giving the deflection field), `init_deflection =
deflection.copy()`, zero-initialized derived fields, `current_sea_level = 0`,
empty `sea_level` list, and the loaded grid's boundary status (perimeter nodes
are the non-core nodes of the initial grid). -/
def setup {n : ℕ} (cfg : Config n) (z_init : Fin n → ℚ) : State n :=
  let th := fun i => z_init i - cfg.crust_datum
  let ld := fun i => cfg.unit_wt * th i
  let defl := cfg.flex ld
  { z := z_init
    status := fun i => if cfg.perimeter i then fixedValue else core
    cum_depo := fun _ => 0
    thickness := th
    cum_subs := fun _ => 0
    load := ld
    deflection := defl
    init_deflection := defl
    sea_level := 0
    sea_hist := []
    subaerial := fun _ => false
    prev_z := z_init
    qs := fun _ => 0
    rng := 0 }

/-- Modelled from the spec: the `SimpleSubmarineDiffuser` landlab component is
not part of this repository.  Per section 4.6 of the spec its diffusivity
decays with depth below the configured wave-base depth relative to current sea
level and is near-zero above sea level; the near-zero subaerial value is the
parameter `tiny_diff`. -/
def diffusivity {n : ℕ} (cfg : Config n) (sl : ℚ) (zi : ℚ) : ℚ :=
  let d := sl - zi
  if d ≤ 0 then cfg.tiny_diff
  else if d ≤ cfg.wave_base then cfg.marine_diff
  else cfg.marine_diff * cfg.wave_base / d

/-- Modelled from the spec: one explicit diffusion step of the
`SimpleSubmarineDiffuser` (`sd.run_one_step(dt)`), applied across the full
grid: each node currently classified core receives the divergence of the
depth-dependent diffusive flux from its grid neighbours; fixed-value nodes are
held. -/
def diffuse {n : ℕ} (cfg : Config n) (st : Fin n → NodeStatus) (sl : ℚ)
    (z : Fin n → ℚ) : Fin n → ℚ :=
  fun i =>
    if st i = core then
      z i + cfg.dt / (cfg.dx * cfg.dx) *
        (∑ j : Fin n,
          if cfg.adj i j then
            ((diffusivity cfg sl (z i) + diffusivity cfg sl (z j)) / 2) * (z j - z i)
          else 0)
    else z i

/-- EXTENSION phase: `ke.run_one_step(dt)` updates the cumulative-subsidence
field in place. -/
def phase_extension {n : ℕ} (cfg : Config n) (s : State n) : State n :=
  { s with cum_subs := extUpdate cfg.ext cfg.dt s.cum_subs }

/-- LOAD_UPDATE phase: `load[grid.core_nodes] = unit_wt *
(thickness[grid.core_nodes] - cum_subs[grid.core_nodes])`; only the indices of
the currently core nodes of the primary grid are rewritten on the flexure
grid's load field. -/
def phase_load_update {n : ℕ} (cfg : Config n) (s : State n) : State n :=
  { s with load := fun i =>
      if s.status i = core then cfg.unit_wt * (s.thickness i - s.cum_subs i)
      else s.load i }

/-- FLEXURE phase: `fl.update()` recomputes the deflection field from the load
field, then `z[:] = crust_datum + thickness - (cum_subs + (deflection -
init_deflection))` rewrites the elevation of every node. -/
def phase_flexure {n : ℕ} (cfg : Config n) (s : State n) : State n :=
  let defl := cfg.flex s.load
  { s with
    deflection := defl
    z := fun i => cfg.crust_datum + s.thickness i -
      (s.cum_subs i + (defl i - s.init_deflection i)) }

/-- SEA_LEVEL_UPDATE phase: `current_sea_level =
sea_level_random(current_sea_level, sea_level_delta)` (the random walk
`current + delta * np.random.randn()`), `sea_level.append(current_sea_level)`,
`subaerial[:] = z > current_sea_level` with `submarine` its complement, and the
`z0 = z.copy()` snapshot used later by the bookkeeping phase. -/
def phase_sea_level {n : ℕ} (cfg : Config n) (s : State n) : State n :=
  let sl := s.sea_level + cfg.sea_level_delta * cfg.draws s.rng
  { s with
    sea_level := sl
    sea_hist := s.sea_hist ++ [sl]
    subaerial := fun i => decide (sl < s.z i)
    prev_z := s.z
    rng := s.rng + 1 }

/-- LAND_SEA_PARTITION_1 phase: `grid.status_at_node[submarine] =
FIXED_VALUE` then `grid.status_at_node[subaerial] = CORE`; the two masks are
complementary, so every node ends classified by the subaerial mask. -/
def phase_partition1 {n : ℕ} (cfg : Config n) (s : State n) : State n :=
  { s with status := fun i => if s.subaerial i then core else fixedValue }

/-- FLUVIAL_EROSION phase: `fa.run_one_step()` then `ed.run_one_step(dt)`, the
black-box flow-routing / erosion-deposition collaborator; it returns the
updated elevation field and the sediment-influx field `ed._qs_in`. -/
def phase_fluvial {n : ℕ} (cfg : Config n) (s : State n) : State n :=
  let f := cfg.fluvial s.status s.z cfg.dt
  { s with z := f.1, qs := f.2 }

/-- SUBMARINE_DEPOSITION phase: `depo_rate = ed._qs_in / grid.area_of_cell[0]`
then `z[submarine] += depo_rate[submarine] * dt`, using the submarine mask
computed at the sea-level update. -/
def phase_deposition {n : ℕ} (cfg : Config n) (s : State n) : State n :=
  { s with z := fun i =>
      if s.subaerial i then s.z i
      else s.z i + (s.qs i / cfg.cellArea) * cfg.dt }

/-- LAND_SEA_PARTITION_2 phase: `grid.status_at_node[submarine] = CORE` then
`grid.status_at_node[perimeter_nodes] = FIXED_VALUE`, in that order. -/
def phase_partition2 {n : ℕ} (cfg : Config n) (s : State n) : State n :=
  { s with status := fun i =>
      if cfg.perimeter i then fixedValue
      else if s.subaerial i then s.status i else core }

/-- SUBMARINE_DIFFUSION phase: `sd.sea_level = current_sea_level` then
`sd.run_one_step(dt)` applies the depth-dependent explicit diffusion across
the grid. -/
def phase_diffusion {n : ℕ} (cfg : Config n) (s : State n) : State n :=
  { s with z := diffuse cfg s.status s.sea_level s.z }

/-- BOOKKEEPING phase: `cum_depo[grid.core_nodes] += z[grid.core_nodes] -
z0[grid.core_nodes]` and `thickness[grid.core_nodes] += z[grid.core_nodes] -
z0[grid.core_nodes]`, differencing the current elevation against the `z0`
snapshot, at the currently core nodes only. -/
def phase_bookkeeping {n : ℕ} (cfg : Config n) (s : State n) : State n :=
  { s with
    cum_depo := fun i =>
      if s.status i = core then s.cum_depo i + (s.z i - s.prev_z i) else s.cum_depo i
    thickness := fun i =>
      if s.status i = core then s.thickness i + (s.z i - s.prev_z i) else s.thickness i }

/-- One iteration of the notebook's main time loop, transliterated line by
line (the periodic plotting and grid-saving blocks at the end of the loop body
are out of scope per the spec and touch none of the modelled fields). -/
def run_step {n : ℕ} (cfg : Config n) (s : State n) : State n :=
  let cs := extUpdate cfg.ext cfg.dt s.cum_subs
  let ld := fun i =>
    if s.status i = core then cfg.unit_wt * (s.thickness i - cs i) else s.load i
  let defl := cfg.flex ld
  let z1 := fun i =>
    cfg.crust_datum + s.thickness i - (cs i + (defl i - s.init_deflection i))
  let sl := s.sea_level + cfg.sea_level_delta * cfg.draws s.rng
  let hist := s.sea_hist ++ [sl]
  let air := fun i => decide (sl < z1 i)
  let z0 := z1
  let st1 := fun i => if air i then core else fixedValue
  let f := cfg.fluvial st1 z1 cfg.dt
  let z2 := f.1
  let qsf := f.2
  let z3 := fun i => if air i then z2 i else z2 i + (qsf i / cfg.cellArea) * cfg.dt
  let st2 := fun i =>
    if cfg.perimeter i then fixedValue
    else if air i then st1 i else core
  let z4 := diffuse cfg st2 sl z3
  { z := z4
    status := st2
    cum_depo := fun i =>
      if st2 i = core then s.cum_depo i + (z4 i - z0 i) else s.cum_depo i
    thickness := fun i =>
      if st2 i = core then s.thickness i + (z4 i - z0 i) else s.thickness i
    cum_subs := cs
    load := ld
    deflection := defl
    init_deflection := s.init_deflection
    sea_level := sl
    sea_hist := hist
    subaerial := air
    prev_z := z0
    qs := qsf
    rng := s.rng + 1 }

/-- State after `k` completed iterations of the main time loop. -/
def run {n : ℕ} (cfg : Config n) (s : State n) : ℕ → State n
  | 0 => s
  | k + 1 => run_step cfg (run cfg s k)

/-- The monolithic loop body equals the ordered composition of the ten phase
functions (shared helper; the claim-level statement is separate). -/
lemma run_step_eq_phases {n : ℕ} (cfg : Config n) (s : State n) :
    run_step cfg s =
      phase_bookkeeping cfg (phase_diffusion cfg (phase_partition2 cfg
        (phase_deposition cfg (phase_fluvial cfg (phase_partition1 cfg
          (phase_sea_level cfg (phase_flexure cfg (phase_load_update cfg
            (phase_extension cfg s))))))))) := by
  rfl

/-- State at the point just after the sea-level update of one step (phases
EXTENSION through SEA_LEVEL_UPDATE applied). -/
def afterSea {n : ℕ} (cfg : Config n) (s : State n) : State n :=
  phase_sea_level cfg (phase_flexure cfg (phase_load_update cfg (phase_extension cfg s)))

/-- State at the start of the fluvial phase of one step (first land/sea
partition applied). -/
def afterPartition1 {n : ℕ} (cfg : Config n) (s : State n) : State n :=
  phase_partition1 cfg (afterSea cfg s)

/-- State just after the fluvial phase of one step. -/
def afterFluvial {n : ℕ} (cfg : Config n) (s : State n) : State n :=
  phase_fluvial cfg (afterPartition1 cfg s)

/-- State just after the submarine-deposition phase of one step. -/
def afterDeposition {n : ℕ} (cfg : Config n) (s : State n) : State n :=
  phase_deposition cfg (afterFluvial cfg s)

/-- State just after the second land/sea partition of one step. -/
def afterPartition2 {n : ℕ} (cfg : Config n) (s : State n) : State n :=
  phase_partition2 cfg (afterDeposition cfg s)

/-- After any completed step the boundary classification is fixed-value
exactly at the grid perimeter: the second partition unconditionally returns
all submarine nodes to core and then holds the perimeter. -/
lemma status_after_step {n : ℕ} (cfg : Config n) (s : State n) (i : Fin n) :
    (run_step cfg s).status i = if cfg.perimeter i then fixedValue else core := by
  simp only [run_step]
  split_ifs <;> simp_all

/-- The pre-loop deflection baseline is never reassigned by a step. -/
lemma init_deflection_run {n : ℕ} (cfg : Config n) (s : State n) (k : ℕ) :
    (run cfg s k).init_deflection = s.init_deflection := by
  induction k with
  | zero => rfl
  | succ k ih => simpa [run, run_step] using ih

/-- A node classified core at any point of a run that started from `setup` is
not a perimeter node. -/
lemma core_imp_nonperimeter {n : ℕ} (cfg : Config n) (z_init : Fin n → ℚ)
    (k : ℕ) (i : Fin n)
    (h : (run cfg (setup cfg z_init) k).status i = core) :
    cfg.perimeter i = false := by
  match k with
  | 0 =>
    by_cases hp : cfg.perimeter i
    · simp [run, setup, hp] at h
    · simpa using hp
  | k + 1 =>
    rw [run, status_after_step] at h
    by_cases hp : cfg.perimeter i
    · simp [hp] at h
    · simpa using hp

/-- A perimeter node is classified fixed-value at the start of every step of a
run that started from `setup`. -/
lemma perimeter_status_run {n : ℕ} (cfg : Config n) (z_init : Fin n → ℚ)
    (k : ℕ) (i : Fin n) (hp : cfg.perimeter i = true) :
    (run cfg (setup cfg z_init) k).status i = fixedValue := by
  match k with
  | 0 => simp [run, setup, hp]
  | k + 1 => rw [run, status_after_step, hp]; rfl

/-- Cumulative subsidence after one step is the extender's update of the
incoming field (definitional reading of the loop body). -/
lemma run_step_cum_subs {n : ℕ} (cfg : Config n) (s : State n) :
    (run_step cfg s).cum_subs = extUpdate cfg.ext cfg.dt s.cum_subs := rfl

/-- The load after one step: rewritten with `unit_wt * (thickness -
cum_subs)` exactly at the nodes classified core at the start of the step,
retained elsewhere. -/
lemma run_step_load {n : ℕ} (cfg : Config n) (s : State n) (i : Fin n) :
    (run_step cfg s).load i =
      if s.status i = core then
        cfg.unit_wt * (s.thickness i - (run_step cfg s).cum_subs i)
      else s.load i := rfl

/-- The deflection after one step is the flexure collaborator applied to the
freshly updated load field. -/
lemma run_step_deflection {n : ℕ} (cfg : Config n) (s : State n) :
    (run_step cfg s).deflection = cfg.flex ((run_step cfg s).load) := rfl

/-- The `z0` snapshot of a step is the elevation written by the flexure
phase. -/
lemma run_step_prev_z {n : ℕ} (cfg : Config n) (s : State n) (i : Fin n) :
    (run_step cfg s).prev_z i =
      cfg.crust_datum + s.thickness i -
        ((run_step cfg s).cum_subs i +
          ((run_step cfg s).deflection i - s.init_deflection i)) := rfl

/-- The sea level after one step follows the random-walk update. -/
lemma run_step_sea_level {n : ℕ} (cfg : Config n) (s : State n) :
    (run_step cfg s).sea_level =
      s.sea_level + cfg.sea_level_delta * cfg.draws s.rng := rfl

/-- Each step appends exactly the new sea level to the history. -/
lemma run_step_sea_hist {n : ℕ} (cfg : Config n) (s : State n) :
    (run_step cfg s).sea_hist = s.sea_hist ++ [(run_step cfg s).sea_level] := rfl

/-- Crustal-thickness bookkeeping of one step, phrased through the step's own
final status, elevation and snapshot fields. -/
lemma run_step_thickness {n : ℕ} (cfg : Config n) (s : State n) (i : Fin n) :
    (run_step cfg s).thickness i =
      if (run_step cfg s).status i = core then
        s.thickness i + ((run_step cfg s).z i - (run_step cfg s).prev_z i)
      else s.thickness i := rfl

/-- Cumulative-deposit bookkeeping of one step. -/
lemma run_step_cum_depo {n : ℕ} (cfg : Config n) (s : State n) (i : Fin n) :
    (run_step cfg s).cum_depo i =
      if (run_step cfg s).status i = core then
        s.cum_depo i + ((run_step cfg s).z i - (run_step cfg s).prev_z i)
      else s.cum_depo i := rfl

/-- At any non-perimeter node, one completed step reestablishes the elevation
decomposition exactly: the fluvial, deposition and diffusion elevation changes
at such a node are absorbed into crustal thickness by the bookkeeping phase,
and cumulative subsidence and deflection do not change after the flexure
phase's elevation rewrite. -/
lemma decomposition_after_step {n : ℕ} (cfg : Config n) (s : State n)
    (i : Fin n) (hi : cfg.perimeter i = false) :
    (run_step cfg s).z i =
      cfg.crust_datum + (run_step cfg s).thickness i -
        ((run_step cfg s).cum_subs i +
          ((run_step cfg s).deflection i - (run_step cfg s).init_deflection i)) := by
  simp only [run_step, hi]
  split_ifs <;> simp_all <;> ring

/-- Perimeter flags of a small three-node example grid (a line of nodes whose
two ends are the perimeter). -/
def exPerim3 : Fin 3 → Bool :=
  fun i => decide (i.val = 0) || decide (i.val = 2)

/-- Adjacency of the three-node line grid. -/
def exAdj3 : Fin 3 → Fin 3 → Bool :=
  fun i j => decide (i.val + 1 = j.val) || decide (j.val + 1 = i.val)

/-- Concrete extension model used by example configurations: zero extension
rate, fault trace beyond the grid (all nodes footwall, zero profile). -/
def exTEM3 : TectonicExtensionModel 3 :=
  { extension_rate := 0
    fault_dip := 60
    fault_location := 1000
    detachment_depth := 100
    x := fun i => (i.val : ℚ)
    profile := fun _ => 0
    profile_nonneg := fun _ => le_refl 0
    profile_footwall := fun _ _ => rfl }

/-- Example configuration on the three-node line grid, with zero sea-level
noise, a trivial (identically zero) flexure collaborator, unit spacing and
cell area, and adjustable subaerial diffusivity and fluvial collaborator. -/
def exCfg3 (tiny : ℚ)
    (fluv : (Fin 3 → NodeStatus) → (Fin 3 → ℚ) → ℚ → ((Fin 3 → ℚ) × (Fin 3 → ℚ))) :
    Config 3 :=
  { crust_datum := -10
    unit_wt := 1
    dt := 1
    sea_level_delta := 0
    wave_base := 5
    marine_diff := 1
    tiny_diff := tiny
    cellArea := 1
    dx := 1
    perimeter := exPerim3
    adj := exAdj3
    draws := fun _ => 0
    ext := exTEM3
    flex := fun _ => fun _ => 0
    fluvial := fluv }

/-- Trivial fluvial collaborator: elevation unchanged, zero sediment influx. -/
def idFluv3 : (Fin 3 → NodeStatus) → (Fin 3 → ℚ) → ℚ → ((Fin 3 → ℚ) × (Fin 3 → ℚ)) :=
  fun _ z _ => (z, fun _ => 0)

/-- C2: each iteration of the run loop executes exactly the ten phases
EXTENSION, LOAD_UPDATE, FLEXURE, SEA_LEVEL_UPDATE, LAND_SEA_PARTITION_1,
FLUVIAL_EROSION, SUBMARINE_DEPOSITION, LAND_SEA_PARTITION_2,
SUBMARINE_DIFFUSION, BOOKKEEPING in that strict order: the per-step state
transformation equals the composition of the ten phase functions applied in
that order, as a pure state-to-state map (returning nothing besides the
mutated grid state). -/
theorem C2_step_is_ten_phase_composition :
    ∀ (n : ℕ) (cfg : Config n),
      run_step cfg =
        (phase_bookkeeping cfg) ∘ (phase_diffusion cfg) ∘ (phase_partition2 cfg) ∘
          (phase_deposition cfg) ∘ (phase_fluvial cfg) ∘ (phase_partition1 cfg) ∘
            (phase_sea_level cfg) ∘ (phase_flexure cfg) ∘ (phase_load_update cfg) ∘
              (phase_extension cfg) := by
  intro n cfg
  funext s
  exact run_step_eq_phases cfg s

/-- C3 (amended): in the first land/sea partition of every step, exactly the
nodes with elevation at or below current sea level are classified FIXED_VALUE
and all others CORE; consequently every node classified FIXED_VALUE during the
fluvial phase is at or below current sea level at the start of that phase (the
source computes `subaerial = z > sea_level`, so a node exactly at sea level is
submarine). -/
theorem C3_partition1_fixed_iff_at_or_below_sea_level :
    ∀ (n : ℕ) (cfg : Config n) (s : State n) (i : Fin n),
      (afterPartition1 cfg s).status i = fixedValue ↔
        (afterPartition1 cfg s).z i ≤ (afterPartition1 cfg s).sea_level := by
  intro n cfg s i
  simp only [afterPartition1, afterSea, phase_partition1, phase_sea_level,
    phase_flexure, phase_load_update, phase_extension]
  by_cases h : (phase_sea_level cfg (phase_flexure cfg (phase_load_update cfg
      (phase_extension cfg s)))).sea_level <
      (phase_flexure cfg (phase_load_update cfg (phase_extension cfg s))).z i
  · simp only [phase_sea_level, phase_flexure, phase_load_update, phase_extension] at h
    simp [h, not_le.mpr h]
  · simp only [phase_sea_level, phase_flexure, phase_load_update, phase_extension] at h
    simp [h, not_lt.mp h]

/-- C3 counterexample: a node whose elevation equals current sea level is
classified FIXED_VALUE for the fluvial phase even though it is not below
current sea level, refuting the claim's strict reading. -/
theorem C3_counterexample :
    (afterPartition1 (exCfg3 0 idFluv3) (setup (exCfg3 0 idFluv3)
        (fun i => if i.val = 1 then 0 else 5))).status 1 = fixedValue ∧
    ¬ (afterPartition1 (exCfg3 0 idFluv3) (setup (exCfg3 0 idFluv3)
        (fun i => if i.val = 1 then 0 else 5))).z 1 <
      (afterPartition1 (exCfg3 0 idFluv3) (setup (exCfg3 0 idFluv3)
        (fun i => if i.val = 1 then 0 else 5))).sea_level := by
  constructor <;>
    · simp only [afterPartition1, afterSea, phase_partition1, phase_sea_level,
        phase_flexure, phase_load_update, phase_extension, setup, exCfg3,
        exTEM3, extUpdate, TectonicExtensionModel.hangingwall, exPerim3, idFluv3]
      norm_num

/-- C4: the submarine deposition phase converts each node's own sediment
influx into a deposition rate by dividing by the representative cell area
(`grid.area_of_cell[0]`, the per-node cell area of the uniform hex grid) and
adds `rate * dt` to the elevation of exactly the nodes classified FIXED_VALUE
during the fluvial phase (the stored submarine mask); subaerial nodes'
elevations are unchanged by this phase. -/
theorem C4_submarine_deposition_rate_and_frame :
    ∀ (n : ℕ) (cfg : Config n) (s : State n) (i : Fin n),
      (phase_deposition cfg (afterFluvial cfg s)).z i =
        if (afterFluvial cfg s).status i = fixedValue then
          (afterFluvial cfg s).z i +
            ((afterFluvial cfg s).qs i / cfg.cellArea) * cfg.dt
        else (afterFluvial cfg s).z i := by
  intro n cfg s i
  simp only [afterFluvial, afterPartition1, phase_fluvial, phase_partition1,
    phase_deposition]
  by_cases h : (afterSea cfg s).subaerial i
  · simp [h]
  · simp [h]

/-- C1 (amended): after every completed timestep of the main loop, the
elevation decomposition invariant `elevation = crust_datum + crustal_thickness
- (cumulative_subsidence + (deflection - initial_deflection))` holds exactly
at every non-perimeter (core) node, with `initial_deflection` the baseline
captured by `setup` before the loop; at perimeter nodes it can fail, because
submarine deposition changes their elevation while the bookkeeping phase only
propagates elevation changes of core nodes into crustal thickness. -/
theorem C1_elevation_decomposition_at_core_nodes :
    ∀ (n : ℕ) (cfg : Config n) (z_init : Fin n → ℚ) (k : ℕ) (i : Fin n),
      cfg.perimeter i = false →
      (run cfg (setup cfg z_init) (k + 1)).z i =
        cfg.crust_datum + (run cfg (setup cfg z_init) (k + 1)).thickness i -
          ((run cfg (setup cfg z_init) (k + 1)).cum_subs i +
            ((run cfg (setup cfg z_init) (k + 1)).deflection i -
              (setup cfg z_init).init_deflection i)) := by
  intro n cfg z_init k i hi
  have hd := init_deflection_run cfg (setup cfg z_init) (k + 1)
  rw [← hd]
  exact decomposition_after_step cfg (run cfg (setup cfg z_init) k) i hi

/-- C1 witness: the invariant theorem applied to the three-node example after
one completed step, at the interior node. -/
theorem C1_witness :
    (exCfg3 0 idFluv3).perimeter 1 = false ∧
    (run (exCfg3 0 idFluv3) (setup (exCfg3 0 idFluv3) (fun _ => 9)) 1).z 1 =
      (exCfg3 0 idFluv3).crust_datum +
        (run (exCfg3 0 idFluv3) (setup (exCfg3 0 idFluv3) (fun _ => 9)) 1).thickness 1 -
          ((run (exCfg3 0 idFluv3) (setup (exCfg3 0 idFluv3) (fun _ => 9)) 1).cum_subs 1 +
            ((run (exCfg3 0 idFluv3) (setup (exCfg3 0 idFluv3) (fun _ => 9)) 1).deflection 1 -
              (setup (exCfg3 0 idFluv3) (fun _ => 9)).init_deflection 1)) :=
  ⟨rfl, C1_elevation_decomposition_at_core_nodes 3 (exCfg3 0 idFluv3)
    (fun _ => 9) 0 1 rfl⟩

/-- Fluvial collaborator that leaves elevation unchanged but reports a unit
sediment influx at every node (a legitimate black-box output: the spec puts no
upper bound on the solver's flux field). -/
def qsFluv3 : (Fin 3 → NodeStatus) → (Fin 3 → ℚ) → ℚ → ((Fin 3 → ℚ) × (Fin 3 → ℚ)) :=
  fun _ z _ => (z, fun _ => 1)

/-- Initial elevation for the C1 counterexample: the perimeter node 0 is deep
below sea level, the others above. -/
def zC1x : Fin 3 → ℚ := fun i => if i.val = 0 then -50 else 9

/-- C1 counterexample: after one completed step, the submarine perimeter node
0 received one timestep of submarine deposition (raising `z` from -50 to -49)
but no thickness bookkeeping, so the elevation decomposition fails there,
refuting the claim's "for every node". -/
theorem C1_counterexample :
    ¬ ((run (exCfg3 0 qsFluv3) (setup (exCfg3 0 qsFluv3) zC1x) 1).z 0 =
      (exCfg3 0 qsFluv3).crust_datum +
        (run (exCfg3 0 qsFluv3) (setup (exCfg3 0 qsFluv3) zC1x) 1).thickness 0 -
          ((run (exCfg3 0 qsFluv3) (setup (exCfg3 0 qsFluv3) zC1x) 1).cum_subs 0 +
            ((run (exCfg3 0 qsFluv3) (setup (exCfg3 0 qsFluv3) zC1x) 1).deflection 0 -
              (setup (exCfg3 0 qsFluv3) zC1x).init_deflection 0))) := by
  simp only [run, run_step, setup, exCfg3, qsFluv3, zC1x, extUpdate,
    TectonicExtensionModel.hangingwall, exTEM3, exPerim3, exAdj3, diffuse,
    diffusivity]
  norm_num

/-- Above sea level the modelled diffusivity is the near-zero subaerial
value. -/
lemma diffusivity_subaerial {n : ℕ} (cfg : Config n) (sl zi : ℚ)
    (h : sl < zi) : diffusivity cfg sl zi = cfg.tiny_diff := by
  simp [diffusivity, sub_nonpos.mpr h.le]

/-- When the subaerial diffusivity is exactly zero and every node stands above
sea level, the explicit diffusion step moves nothing. -/
lemma diffuse_no_op_of_tiny_zero {n : ℕ} (cfg : Config n)
    (st : Fin n → NodeStatus) (sl : ℚ) (z : Fin n → ℚ)
    (htiny : cfg.tiny_diff = 0) (h : ∀ j, sl < z j) (i : Fin n) :
    diffuse cfg st sl z i = z i := by
  unfold diffuse
  split_ifs with hc
  · have hsum : (∑ j : Fin n,
        if cfg.adj i j then
          ((diffusivity cfg sl (z i) + diffusivity cfg sl (z j)) / 2) * (z j - z i)
        else 0) = 0 := by
      apply Finset.sum_eq_zero
      intro j _
      rw [diffusivity_subaerial cfg sl (z i) (h i),
        diffusivity_subaerial cfg sl (z j) (h j), htiny]
      split_ifs <;> norm_num
    rw [hsum, mul_zero, add_zero]
  · rfl

/-- C6 (amended): if sea level is below every node's elevation for the whole
step then, provided no node classified core enters the step on the perimeter,
every node that starts the step classified CORE stays CORE at both partitions
and at the end of the step; the submarine-deposition phase leaves elevation
unchanged; and the submarine-diffusion phase leaves elevation unchanged
exactly in the reading where the spec's near-zero subaerial diffusivity is
zero (with a nonzero near-zero value it moves elevations, see the
counterexample). -/
theorem C6_all_subaerial_step_no_ops :
    ∀ (n : ℕ) (cfg : Config n) (s : State n),
      (∀ i, (afterSea cfg s).subaerial i = true) →
      (∀ i, (afterPartition2 cfg s).sea_level < (afterPartition2 cfg s).z i) →
      cfg.tiny_diff = 0 →
      (∀ i, s.status i = core → cfg.perimeter i = false) →
      (∀ i, s.status i = core →
        (afterPartition1 cfg s).status i = core ∧
        (afterPartition2 cfg s).status i = core ∧
        (run_step cfg s).status i = core) ∧
      (∀ i, (afterDeposition cfg s).z i = (afterFluvial cfg s).z i) ∧
      (∀ i, (phase_diffusion cfg (afterPartition2 cfg s)).z i =
        (afterPartition2 cfg s).z i) := by
  intro n cfg s hair hdiff htiny hstat
  refine ⟨?_, ?_, ?_⟩
  · intro i hcore
    have hp := hstat i hcore
    refine ⟨?_, ?_, ?_⟩
    · simp [afterPartition1, phase_partition1, hair i]
    · simp [afterPartition2, phase_partition2, afterDeposition, phase_deposition,
        afterFluvial, phase_fluvial, afterPartition1, phase_partition1,
        hair i, hp]
    · rw [status_after_step, hp]; rfl
  · intro i
    have : (afterFluvial cfg s).subaerial i = true := hair i
    simp [afterDeposition, phase_deposition, this]
  · intro i
    exact diffuse_no_op_of_tiny_zero cfg _ _ _ htiny hdiff i

/-- C6 witness: the amended theorem applied to the three-node example with a
flat elevation of 9, sea level 0 and zero subaerial diffusivity, instantiated
at the interior node 1. -/
theorem C6_witness :
    ((afterSea (exCfg3 0 idFluv3) (setup (exCfg3 0 idFluv3) (fun _ => 9))).subaerial 1 = true ∧
      (afterPartition2 (exCfg3 0 idFluv3) (setup (exCfg3 0 idFluv3) (fun _ => 9))).sea_level <
        (afterPartition2 (exCfg3 0 idFluv3) (setup (exCfg3 0 idFluv3) (fun _ => 9))).z 1) ∧
    ((setup (exCfg3 0 idFluv3) (fun _ => 9)).status 1 = core) ∧
    ((run_step (exCfg3 0 idFluv3) (setup (exCfg3 0 idFluv3) (fun _ => 9))).status 1 = core) ∧
    ((afterDeposition (exCfg3 0 idFluv3) (setup (exCfg3 0 idFluv3) (fun _ => 9))).z 1 =
      (afterFluvial (exCfg3 0 idFluv3) (setup (exCfg3 0 idFluv3) (fun _ => 9))).z 1) ∧
    ((phase_diffusion (exCfg3 0 idFluv3)
        (afterPartition2 (exCfg3 0 idFluv3) (setup (exCfg3 0 idFluv3) (fun _ => 9)))).z 1 =
      (afterPartition2 (exCfg3 0 idFluv3) (setup (exCfg3 0 idFluv3) (fun _ => 9))).z 1) := by
  have hair : ∀ i, (afterSea (exCfg3 0 idFluv3) (setup (exCfg3 0 idFluv3) (fun _ => 9))).subaerial i = true := by
    intro i
    simp only [afterSea, phase_sea_level, phase_flexure, phase_load_update,
      phase_extension, setup, exCfg3, exTEM3, extUpdate,
      TectonicExtensionModel.hangingwall, exPerim3, idFluv3]
    norm_num
  have hdiff : ∀ i, (afterPartition2 (exCfg3 0 idFluv3) (setup (exCfg3 0 idFluv3) (fun _ => 9))).sea_level <
      (afterPartition2 (exCfg3 0 idFluv3) (setup (exCfg3 0 idFluv3) (fun _ => 9))).z i := by
    intro i
    simp only [afterPartition2, phase_partition2, afterDeposition, phase_deposition,
      afterFluvial, phase_fluvial, afterPartition1, phase_partition1, afterSea,
      phase_sea_level, phase_flexure, phase_load_update, phase_extension, setup,
      exCfg3, exTEM3, extUpdate, TectonicExtensionModel.hangingwall, exPerim3,
      idFluv3]
    norm_num
  have hstat : ∀ i, (setup (exCfg3 0 idFluv3) (fun _ => 9)).status i = core →
      (exCfg3 0 idFluv3).perimeter i = false := by
    intro i
    fin_cases i <;> simp [setup, exCfg3, exPerim3]
  have hcore1 : (setup (exCfg3 0 idFluv3) (fun _ => 9)).status 1 = core := by
    simp [setup, exCfg3, exPerim3]
  have h := C6_all_subaerial_step_no_ops 3 (exCfg3 0 idFluv3)
    (setup (exCfg3 0 idFluv3) (fun _ => 9)) hair hdiff rfl hstat
  exact ⟨⟨hair 1, hdiff 1⟩, hcore1, (h.1 1 hcore1).2.2, h.2.1 1, h.2.2 1⟩

/-- Initial elevation for the C6 counterexample: a ridge at the interior node
between two lower subaerial perimeter nodes. -/
def zC6 : Fin 3 → ℚ := fun i => if i.val = 1 then 9 else 3

/-- C6 counterexample: with the spec's near-zero subaerial diffusivity set to
the nonzero value 1/1000 and sea level (0) below every node's elevation
throughout the step, the submarine-diffusion phase still changes the interior
node's elevation, refuting the claim that the submarine phases leave every
field unchanged. -/
theorem C6_counterexample :
    ((afterSea (exCfg3 (1/1000) idFluv3) (setup (exCfg3 (1/1000) idFluv3) zC6)).subaerial 0 = true ∧
      (afterSea (exCfg3 (1/1000) idFluv3) (setup (exCfg3 (1/1000) idFluv3) zC6)).subaerial 1 = true ∧
      (afterSea (exCfg3 (1/1000) idFluv3) (setup (exCfg3 (1/1000) idFluv3) zC6)).subaerial 2 = true) ∧
    ((afterPartition2 (exCfg3 (1/1000) idFluv3) (setup (exCfg3 (1/1000) idFluv3) zC6)).sea_level <
      (afterPartition2 (exCfg3 (1/1000) idFluv3) (setup (exCfg3 (1/1000) idFluv3) zC6)).z 0 ∧
      (afterPartition2 (exCfg3 (1/1000) idFluv3) (setup (exCfg3 (1/1000) idFluv3) zC6)).sea_level <
      (afterPartition2 (exCfg3 (1/1000) idFluv3) (setup (exCfg3 (1/1000) idFluv3) zC6)).z 1 ∧
      (afterPartition2 (exCfg3 (1/1000) idFluv3) (setup (exCfg3 (1/1000) idFluv3) zC6)).sea_level <
      (afterPartition2 (exCfg3 (1/1000) idFluv3) (setup (exCfg3 (1/1000) idFluv3) zC6)).z 2) ∧
    ¬ ((phase_diffusion (exCfg3 (1/1000) idFluv3)
        (afterPartition2 (exCfg3 (1/1000) idFluv3) (setup (exCfg3 (1/1000) idFluv3) zC6))).z 1 =
      (afterPartition2 (exCfg3 (1/1000) idFluv3) (setup (exCfg3 (1/1000) idFluv3) zC6)).z 1) := by
  have hair : ∀ i : Fin 3,
      (afterSea (exCfg3 (1/1000) idFluv3) (setup (exCfg3 (1/1000) idFluv3) zC6)).subaerial i = true := by
    intro i
    simp only [afterSea, phase_sea_level, phase_flexure, phase_load_update,
      phase_extension, setup, exCfg3, exTEM3, extUpdate,
      TectonicExtensionModel.hangingwall, exPerim3, idFluv3, zC6]
    fin_cases i <;> norm_num
  have hdepth : ∀ i : Fin 3,
      (afterPartition2 (exCfg3 (1/1000) idFluv3) (setup (exCfg3 (1/1000) idFluv3) zC6)).sea_level <
        (afterPartition2 (exCfg3 (1/1000) idFluv3) (setup (exCfg3 (1/1000) idFluv3) zC6)).z i := by
    intro i
    simp only [afterPartition2, phase_partition2, afterDeposition, phase_deposition,
      afterFluvial, phase_fluvial, afterPartition1, phase_partition1, afterSea,
      phase_sea_level, phase_flexure, phase_load_update, phase_extension, setup,
      exCfg3, exTEM3, extUpdate, TectonicExtensionModel.hangingwall, exPerim3,
      idFluv3, zC6]
    fin_cases i <;> norm_num
  refine ⟨⟨hair 0, hair 1, hair 2⟩, ⟨hdepth 0, hdepth 1, hdepth 2⟩, ?_⟩
  simp only [phase_diffusion, diffuse, diffusivity, afterPartition2,
    phase_partition2, afterDeposition, phase_deposition, afterFluvial,
    phase_fluvial, afterPartition1, phase_partition1, afterSea,
    phase_sea_level, phase_flexure, phase_load_update, phase_extension, setup,
    exCfg3, exTEM3, extUpdate, TectonicExtensionModel.hangingwall, exPerim3,
    exAdj3, idFluv3, zC6, Fin.sum_univ_three]
  norm_num

/-- With zero extension rate and a load-insensitive (disabled) flexure
collaborator, a run from `setup` keeps cumulative subsidence at zero, keeps
the deflection at the pre-loop baseline, and maintains at every non-perimeter
node both `thickness = z - crust_datum` and `cum_depo = z - z_init`
(telescoping of the per-step bookkeeping). -/
lemma conservation_invariant {n : ℕ} (cfg : Config n) (z_init : Fin n → ℚ)
    (hrate : cfg.ext.extension_rate = 0)
    (hflex : ∀ l l', cfg.flex l = cfg.flex l') (k : ℕ) :
    (∀ i, (run cfg (setup cfg z_init) k).cum_subs i = 0) ∧
    (∀ i, (run cfg (setup cfg z_init) k).deflection i =
      (setup cfg z_init).init_deflection i) ∧
    (∀ i, cfg.perimeter i = false →
      (run cfg (setup cfg z_init) k).thickness i =
          (run cfg (setup cfg z_init) k).z i - cfg.crust_datum ∧
      (run cfg (setup cfg z_init) k).cum_depo i =
          (run cfg (setup cfg z_init) k).z i - z_init i) := by
  induction k with
  | zero =>
    refine ⟨fun i => rfl, fun i => rfl, fun i _ => ⟨?_, ?_⟩⟩
    · show z_init i - cfg.crust_datum = z_init i - cfg.crust_datum
      rfl
    · show (0 : ℚ) = z_init i - z_init i
      rw [sub_self]
  | succ k ih =>
    have hcs : ∀ i, (run cfg (setup cfg z_init) (k + 1)).cum_subs i = 0 := by
      intro i
      show (run_step cfg (run cfg (setup cfg z_init) k)).cum_subs i = 0
      rw [run_step_cum_subs]
      simp [extUpdate, hrate, ih.1 i]
    have hdefl : ∀ i, (run cfg (setup cfg z_init) (k + 1)).deflection i =
        (setup cfg z_init).init_deflection i := by
      intro i
      show (run_step cfg (run cfg (setup cfg z_init) k)).deflection i = _
      rw [run_step_deflection]
      rw [hflex ((run_step cfg (run cfg (setup cfg z_init) k)).load)
        (fun j => cfg.unit_wt * (z_init j - cfg.crust_datum))]
      rfl
    refine ⟨hcs, hdefl, fun i hp => ?_⟩
    set t := run cfg (setup cfg z_init) k with ht
    have hstep : run cfg (setup cfg z_init) (k + 1) = run_step cfg t := rfl
    have hstatus : (run_step cfg t).status i = core := by
      rw [status_after_step, hp]; rfl
    have hprev : (run_step cfg t).prev_z i = t.z i := by
      rw [run_step_prev_z]
      have h1 : (run_step cfg t).cum_subs i = 0 := hstep ▸ hcs i
      have h2 : (run_step cfg t).deflection i =
          (setup cfg z_init).init_deflection i := hstep ▸ hdefl i
      have h3 : t.init_deflection i = (setup cfg z_init).init_deflection i := by
        rw [ht, init_deflection_run]
      have h4 : t.thickness i = t.z i - cfg.crust_datum := ((ih.2.2 i) hp).1
      rw [h1, h2, h3, h4]
      ring
    constructor
    · rw [hstep, run_step_thickness, if_pos hstatus, hprev,
        ((ih.2.2 i) hp).1]
      ring
    · rw [hstep, run_step_cum_depo, if_pos hstatus, hprev,
        ((ih.2.2 i) hp).2]
      ring

/-- C7: with extension rate 0 and isostasy disabled (a flexure collaborator
insensitive to the load), after every number of completed steps the sum of
cumulative deposit thickness over the currently CORE nodes equals the sum over
those nodes of the total elevation change since the run's start. -/
theorem C7_deposit_equals_elevation_change_over_core :
    ∀ (n : ℕ) (cfg : Config n) (z_init : Fin n → ℚ) (k : ℕ),
      cfg.ext.extension_rate = 0 →
      (∀ l l', cfg.flex l = cfg.flex l') →
      (∑ i ∈ Finset.univ.filter
          (fun i => (run cfg (setup cfg z_init) k).status i = core),
        (run cfg (setup cfg z_init) k).cum_depo i) =
      (∑ i ∈ Finset.univ.filter
          (fun i => (run cfg (setup cfg z_init) k).status i = core),
        ((run cfg (setup cfg z_init) k).z i - z_init i)) := by
  intro n cfg z_init k hrate hflex
  apply Finset.sum_congr rfl
  intro i hi
  have hcore : (run cfg (setup cfg z_init) k).status i = core :=
    (Finset.mem_filter.mp hi).2
  have hp := core_imp_nonperimeter cfg z_init k i hcore
  exact ((conservation_invariant cfg z_init hrate hflex k).2.2 i hp).2

/-- C7 witness: the conservation theorem applied to the three-node example
after two completed steps. -/
theorem C7_witness :
    (exCfg3 0 idFluv3).ext.extension_rate = 0 ∧
    (∑ i ∈ Finset.univ.filter
        (fun i => (run (exCfg3 0 idFluv3) (setup (exCfg3 0 idFluv3) (fun _ => 9)) 2).status i = core),
      (run (exCfg3 0 idFluv3) (setup (exCfg3 0 idFluv3) (fun _ => 9)) 2).cum_depo i) =
    (∑ i ∈ Finset.univ.filter
        (fun i => (run (exCfg3 0 idFluv3) (setup (exCfg3 0 idFluv3) (fun _ => 9)) 2).status i = core),
      ((run (exCfg3 0 idFluv3) (setup (exCfg3 0 idFluv3) (fun _ => 9)) 2).z i - (fun _ => (9:ℚ)) i)) :=
  ⟨rfl, C7_deposit_equals_elevation_change_over_core 3 (exCfg3 0 idFluv3)
    (fun _ => 9) 2 rfl (fun _ _ => rfl)⟩

/-- One extender call adds its per-call increment on top of the previous
cumulative subsidence. -/
lemma extRun_succ {n : ℕ} (m : TectonicExtensionModel n) (dt : ℚ)
    (cs : Fin n → ℚ) (k : ℕ) (i : Fin n) :
    extRun m dt cs (k + 1) i = extRun m dt cs k i +
      (if m.hangingwall i then m.extension_rate * m.profile i * dt else 0) := rfl

/-- Footwall nodes are never touched by the extender. -/
lemma extRun_footwall {n : ℕ} (m : TectonicExtensionModel n) (dt : ℚ)
    (cs : Fin n → ℚ) (i : Fin n) (hfw : m.hangingwall i = false) :
    ∀ k, extRun m dt cs k i = cs i := by
  intro k
  induction k with
  | zero => rfl
  | succ k ih => rw [extRun_succ, hfw]; simpa using ih

/-- C8: for fixed fault dip, fault location and detachment depth (one fixed
extension model), any positive extension rate and nonnegative timestep, the
cumulative subsidence recorded at any fixed node is monotonically
non-decreasing across successive calls of the tectonic extension update, and
footwall nodes are unaffected (they keep their initial value forever). -/
theorem C8_hangingwall_subsidence_monotone :
    ∀ (n : ℕ) (m : TectonicExtensionModel n) (dt : ℚ) (cs : Fin n → ℚ)
      (i : Fin n) (k k' : ℕ),
      0 < m.extension_rate → 0 ≤ dt → k ≤ k' →
      (extRun m dt cs k i ≤ extRun m dt cs k' i) ∧
      (m.hangingwall i = false → extRun m dt cs k' i = cs i) := by
  intro n m dt cs i k k' hrate hdt hkk
  constructor
  · have mono : Monotone (fun j => extRun m dt cs j i) := by
      apply monotone_nat_of_le_succ
      intro j
      rw [extRun_succ]
      have hinc : 0 ≤ (if m.hangingwall i then m.extension_rate * m.profile i * dt else 0) := by
        split_ifs
        · exact mul_nonneg (mul_nonneg hrate.le (m.profile_nonneg i)) hdt
        · exact le_refl 0
      linarith
    exact mono hkk
  · intro hfw
    exact extRun_footwall m dt cs i hfw k'

/-- Concrete extension model for the C8 witness: two nodes, the second on the
hangingwall side of the fault trace, unit extension rate. -/
def exTEM8 : TectonicExtensionModel 2 :=
  { extension_rate := 1
    fault_dip := 60
    fault_location := 5
    detachment_depth := 100
    x := fun i => if i.val = 1 then 10 else 0
    profile := fun i => if i.val = 1 then 2 else 0
    profile_nonneg := by intro i; fin_cases i <;> norm_num
    profile_footwall := by
      intro i h
      fin_cases i
      · rfl
      · exfalso; apply h; norm_num }

/-- C8 witness: the monotonicity theorem applied to the concrete two-node
extension model, at the hangingwall node (indices of call counts 1 and 2) and
at the footwall node. -/
theorem C8_witness :
    0 < exTEM8.extension_rate ∧ (0:ℚ) ≤ 1 ∧ 1 ≤ 2 ∧
    (extRun exTEM8 1 (fun _ => 0) 1 1 ≤ extRun exTEM8 1 (fun _ => 0) 2 1) ∧
    (extRun exTEM8 1 (fun _ => 0) 2 0 = 0) :=
  ⟨by norm_num [exTEM8], by norm_num, by norm_num,
    (C8_hangingwall_subsidence_monotone 2 exTEM8 1 (fun _ => 0) 1 1 2
      (by norm_num [exTEM8]) (by norm_num) (by norm_num)).1,
    (C8_hangingwall_subsidence_monotone 2 exTEM8 1 (fun _ => 0) 0 1 2
      (by norm_num [exTEM8]) (by norm_num) (by norm_num)).2
      (by simp [TectonicExtensionModel.hangingwall, exTEM8])⟩

/-- With zero noise scale, a run from `setup` has sea level constantly 0 and a
history that is a constant list of zeros. -/
lemma sea_constant_of_delta_zero {n : ℕ} (cfg : Config n) (z_init : Fin n → ℚ)
    (hd : cfg.sea_level_delta = 0) (k : ℕ) :
    (run cfg (setup cfg z_init) k).sea_level = 0 ∧
    (run cfg (setup cfg z_init) k).sea_hist = List.replicate k 0 := by
  induction k with
  | zero => exact ⟨rfl, rfl⟩
  | succ k ih =>
    have hsl : (run cfg (setup cfg z_init) (k + 1)).sea_level = 0 := by
      show (run_step cfg (run cfg (setup cfg z_init) k)).sea_level = 0
      rw [run_step_sea_level, hd, zero_mul, add_zero, ih.1]
    refine ⟨hsl, ?_⟩
    show (run_step cfg (run cfg (setup cfg z_init) k)).sea_hist = _
    rw [run_step_sea_hist, ih.2]
    have : (run_step cfg (run cfg (setup cfg z_init) k)).sea_level = 0 := hsl
    rw [this, List.replicate_succ']

/-- C9: the sea-level forcing is the random walk `next = current + delta *
standard_normal_draw()`; each advance appends exactly one value (the new sea
level) to the ordered history, which is append-only across steps; and with
noise scale `delta = 0` every advance returns the current sea level unchanged,
so a run's history is the constant sequence of that value. -/
theorem C9_sea_level_random_walk :
    ∀ (n : ℕ) (cfg : Config n) (s : State n) (z_init : Fin n → ℚ) (k : ℕ),
      ((phase_sea_level cfg s).sea_level =
        s.sea_level + cfg.sea_level_delta * cfg.draws s.rng) ∧
      ((phase_sea_level cfg s).sea_hist =
        s.sea_hist ++ [(phase_sea_level cfg s).sea_level]) ∧
      ((run cfg s (k + 1)).sea_hist =
        (run cfg s k).sea_hist ++ [(run cfg s (k + 1)).sea_level]) ∧
      (cfg.sea_level_delta = 0 →
        (phase_sea_level cfg s).sea_level = s.sea_level ∧
        (run cfg (setup cfg z_init) k).sea_level = 0 ∧
        (run cfg (setup cfg z_init) k).sea_hist = List.replicate k 0) := by
  intro n cfg s z_init k
  refine ⟨rfl, rfl, ?_, ?_⟩
  · show (run_step cfg (run cfg s k)).sea_hist = _
    rw [run_step_sea_hist]
    rfl
  · intro hd
    refine ⟨?_, (sea_constant_of_delta_zero cfg z_init hd k).1,
      (sea_constant_of_delta_zero cfg z_init hd k).2⟩
    show s.sea_level + cfg.sea_level_delta * cfg.draws s.rng = s.sea_level
    rw [hd, zero_mul, add_zero]

/-- C9 witness: with the example configuration's zero noise scale, the run's
sea-level history after two steps is the constant list of zeros. -/
theorem C9_witness :
    (exCfg3 0 idFluv3).sea_level_delta = 0 ∧
    (run (exCfg3 0 idFluv3) (setup (exCfg3 0 idFluv3) (fun _ => 9)) 2).sea_level = 0 ∧
    (run (exCfg3 0 idFluv3) (setup (exCfg3 0 idFluv3) (fun _ => 9)) 2).sea_hist =
      List.replicate 2 0 :=
  ⟨rfl,
    ((C9_sea_level_random_walk 3 (exCfg3 0 idFluv3)
      (setup (exCfg3 0 idFluv3) (fun _ => 9)) (fun _ => 9) 2).2.2.2 rfl).2.1,
    ((C9_sea_level_random_walk 3 (exCfg3 0 idFluv3)
      (setup (exCfg3 0 idFluv3) (fun _ => 9)) (fun _ => 9) 2).2.2.2 rfl).2.2⟩

/-- In a run from `setup`, the load at a perimeter node keeps its pre-loop
value forever. -/
lemma load_perimeter_run {n : ℕ} (cfg : Config n) (z_init : Fin n → ℚ)
    (k : ℕ) (i : Fin n) (hp : cfg.perimeter i = true) :
    (run cfg (setup cfg z_init) k).load i =
      cfg.unit_wt * (z_init i - cfg.crust_datum) := by
  induction k with
  | zero => rfl
  | succ k ih =>
    show (run_step cfg (run cfg (setup cfg z_init) k)).load i = _
    rw [run_step_load]
    have : (run cfg (setup cfg z_init) k).status i = fixedValue :=
      perimeter_status_run cfg z_init k i hp
    rw [this]
    simpa using ih

/-- C10: each step rewrites the flexure-grid load field only at the indices of
the primary grid's currently core nodes (with `unit_wt * (thickness -
cum_subs)`); every other index — in particular every perimeter node of a run
started from `setup` — retains forever the pre-loop value `unit_wt *
initial_crustal_thickness = unit_wt * (z_init - crust_datum)`, so erosion or
deposition at perimeter nodes is never reflected in the flexural load. -/
theorem C10_perimeter_load_frozen :
    ∀ (n : ℕ) (cfg : Config n),
      (∀ (s : State n) (i), (run_step cfg s).load i =
        if s.status i = core then
          cfg.unit_wt * (s.thickness i - extUpdate cfg.ext cfg.dt s.cum_subs i)
        else s.load i) ∧
      (∀ (z_init : Fin n → ℚ) (k : ℕ) (i : Fin n), cfg.perimeter i = true →
        (run cfg (setup cfg z_init) k).load i =
          cfg.unit_wt * (z_init i - cfg.crust_datum)) := by
  intro n cfg
  exact ⟨fun s i => run_step_load cfg s i,
    fun z_init k i hp => load_perimeter_run cfg z_init k i hp⟩

/-- C10 witness: the load-retention theorem applied to the three-node example
at the perimeter node 0 after two steps. -/
theorem C10_witness :
    (exCfg3 0 idFluv3).perimeter 0 = true ∧
    (run (exCfg3 0 idFluv3) (setup (exCfg3 0 idFluv3) (fun _ => 9)) 2).load 0 =
      (exCfg3 0 idFluv3).unit_wt * ((fun _ => (9:ℚ)) 0 - (exCfg3 0 idFluv3).crust_datum) :=
  ⟨rfl, (C10_perimeter_load_frozen 3 (exCfg3 0 idFluv3)).2 (fun _ => 9) 2 0 rfl⟩

namespace NF

/-- IEEE-style extended rational: `none` plays the role of a non-finite float
(NaN or infinity).  Used to settle the claim about the loop's behaviour when a
phase produces a non-finite value: the source loop (notebook lines 435-500)
contains no finiteness check, no exception handling and no early exit, so any
non-finite value simply propagates through the arithmetic while the loop keeps
iterating. -/
abbrev FQ := Option ℚ

/-- Addition with non-finite propagation. -/
def fadd : FQ → FQ → FQ
  | some a, some b => some (a + b)
  | _, _ => none

/-- Subtraction with non-finite propagation. -/
def fsub : FQ → FQ → FQ
  | some a, some b => some (a - b)
  | _, _ => none

/-- Multiplication with non-finite propagation. -/
def fmul : FQ → FQ → FQ
  | some a, some b => some (a * b)
  | _, _ => none

/-- Division with non-finite propagation (the denominators arising in the
instances used here are finite and nonzero). -/
def fdiv : FQ → FQ → FQ
  | some a, some b => some (a / b)
  | _, _ => none

/-- Strict greater-than as numpy evaluates it on floats: any comparison
involving a non-finite NaN value is false (this is what makes a NaN-elevation
node count as submarine in `subaerial = z > sea_level`). -/
def fgt : FQ → FQ → Bool
  | some a, some b => decide (b < a)
  | _, _ => false

open IslandWorld (NodeStatus)

/-- Configuration of the non-finite-propagation model: the loop's scalar
parameters over `FQ`, the per-call extension increment, and the collaborators
(flexure, fluvial, diffusion) as abstract function parameters, exactly as in
the main model. -/
structure NFConfig (n : ℕ) where
  crust_datum : FQ
  unit_wt : FQ
  dt : FQ
  sea_level_delta : FQ
  cellArea : FQ
  perimeter : Fin n → Bool
  draws : ℕ → FQ
  extinc : Fin n → FQ
  flex : (Fin n → FQ) → (Fin n → FQ)
  fluvial : (Fin n → NodeStatus) → (Fin n → FQ) → FQ → ((Fin n → FQ) × (Fin n → FQ))
  diffuseStep : (Fin n → NodeStatus) → FQ → (Fin n → FQ) → (Fin n → FQ)

/-- State of the non-finite-propagation model (same fields as the main
model's `State`, with scalars over `FQ`). -/
structure NFState (n : ℕ) where
  z : Fin n → FQ
  status : Fin n → NodeStatus
  cum_depo : Fin n → FQ
  thickness : Fin n → FQ
  cum_subs : Fin n → FQ
  load : Fin n → FQ
  deflection : Fin n → FQ
  init_deflection : Fin n → FQ
  sea_level : FQ
  sea_hist : List FQ
  subaerial : Fin n → Bool
  prev_z : Fin n → FQ
  qs : Fin n → FQ
  rng : ℕ

/-- One iteration of the main time loop over IEEE-style extended rationals:
the same line-by-line transcription as `IslandWorld.run_step`, with every
arithmetic operation propagating non-finite values and every comparison with
a non-finite value false.  Note there is no branch anywhere that inspects
finiteness and no exit path: the source contains none. -/
def nf_run_step {n : ℕ} (cfg : NFConfig n) (s : NFState n) : NFState n :=
  let cs := fun i => fadd (s.cum_subs i) (cfg.extinc i)
  let ld := fun i =>
    if s.status i = NodeStatus.core then fmul cfg.unit_wt (fsub (s.thickness i) (cs i))
    else s.load i
  let defl := cfg.flex ld
  let z1 := fun i =>
    fsub (fadd cfg.crust_datum (s.thickness i))
      (fadd (cs i) (fsub (defl i) (s.init_deflection i)))
  let sl := fadd s.sea_level (fmul cfg.sea_level_delta (cfg.draws s.rng))
  let hist := s.sea_hist ++ [sl]
  let air := fun i => fgt (z1 i) sl
  let z0 := z1
  let st1 := fun i => if air i then NodeStatus.core else NodeStatus.fixedValue
  let f := cfg.fluvial st1 z1 cfg.dt
  let z2 := f.1
  let qsf := f.2
  let z3 := fun i =>
    if air i then z2 i else fadd (z2 i) (fmul (fdiv (qsf i) cfg.cellArea) cfg.dt)
  let st2 := fun i =>
    if cfg.perimeter i then NodeStatus.fixedValue
    else if air i then st1 i else NodeStatus.core
  let z4 := cfg.diffuseStep st2 sl z3
  { z := z4
    status := st2
    cum_depo := fun i =>
      if st2 i = NodeStatus.core then fadd (s.cum_depo i) (fsub (z4 i) (z0 i))
      else s.cum_depo i
    thickness := fun i =>
      if st2 i = NodeStatus.core then fadd (s.thickness i) (fsub (z4 i) (z0 i))
      else s.thickness i
    cum_subs := cs
    load := ld
    deflection := defl
    init_deflection := s.init_deflection
    sea_level := sl
    sea_hist := hist
    subaerial := air
    prev_z := z0
    qs := qsf
    rng := s.rng + 1 }

/-- State after `k` iterations of the loop over extended rationals. -/
def nf_run {n : ℕ} (cfg : NFConfig n) (s : NFState n) : ℕ → NFState n
  | 0 => s
  | k + 1 => nf_run_step cfg (nf_run cfg s k)

end NF

/-- C5 (amended): the run loop contains no non-finite detection and no abort
path: for every configuration (hence for every behaviour of the collaborators)
and every starting state — including states already carrying non-finite values
— the loop executes all requested iterations, appending exactly one sea-level
entry per iteration; non-finite values propagate silently, and no failure
value tagged with a step index or phase name exists anywhere in the loop
(`nf_run` is a total function into states, with no error channel). -/
theorem C5_no_abort_on_nonfinite :
    ∀ (n : ℕ) (cfg : NF.NFConfig n) (s : NF.NFState n) (k : ℕ),
      (NF.nf_run cfg s k).sea_hist.length = s.sea_hist.length + k := by
  intro n cfg s k
  induction k with
  | zero => rfl
  | succ k ih =>
    show (NF.nf_run_step cfg (NF.nf_run cfg s k)).sea_hist.length = _
    have : (NF.nf_run_step cfg (NF.nf_run cfg s k)).sea_hist =
        (NF.nf_run cfg s k).sea_hist ++ [(NF.nf_run_step cfg (NF.nf_run cfg s k)).sea_level] := rfl
    rw [this, List.length_append, ih]
    simp [Nat.add_assoc]

/-- Concrete configuration for the C5 counterexample: one non-perimeter node,
zero extension increment, constant-zero flexure, identity fluvial collaborator
with zero influx, identity diffusion. -/
def cfgNF : NF.NFConfig 1 :=
  { crust_datum := some (-10)
    unit_wt := some 1
    dt := some 1
    sea_level_delta := some 0
    cellArea := some 1
    perimeter := fun _ => false
    draws := fun _ => some 0
    extinc := fun _ => some 0
    flex := fun _ => fun _ => some 0
    fluvial := fun _ z _ => (z, fun _ => some 0)
    diffuseStep := fun _ _ z => z }

/-- Starting state for the C5 counterexample: finite everywhere except a
non-finite crustal thickness, so the FLEXURE phase's elevation rewrite
produces a non-finite elevation during step 1. -/
def sNF : NF.NFState 1 :=
  { z := fun _ => some 10
    status := fun _ => NodeStatus.core
    cum_depo := fun _ => some 0
    thickness := fun _ => none
    cum_subs := fun _ => some 0
    load := fun _ => some 0
    deflection := fun _ => some 0
    init_deflection := fun _ => some 0
    sea_level := some 0
    sea_hist := []
    subaerial := fun _ => false
    prev_z := fun _ => some 10
    qs := fun _ => some 0
    rng := 0 }

/-- C5 counterexample: in step 1 the flexure phase's elevation rewrite
produces a non-finite elevation (`none`), yet the run does not terminate:
after 3 requested iterations the history holds 3 entries (all three steps
executed), the elevation is still non-finite, and the non-finite value has
spread into crustal thickness — refuting the claim that the step aborts and
the run terminates immediately with a tagged failure. -/
theorem C5_counterexample :
    (NF.nf_run cfgNF sNF 1).z 0 = none ∧
    (NF.nf_run cfgNF sNF 3).sea_hist.length = 3 ∧
    (NF.nf_run cfgNF sNF 3).z 0 = none ∧
    (NF.nf_run cfgNF sNF 3).thickness 0 = none := by
  refine ⟨rfl, rfl, rfl, rfl⟩

end IslandWorld
